import Mathlib

set_option maxHeartbeats 1000000
set_option maxRecDepth 4000

namespace Nock

/-- A JavaScript value as `nock.js` manipulates them: a number (an atom,
idealised here as an exact natural number), a two-element array (a cell),
or `undefined` (the value JavaScript produces when indexing a number, as in
`(5)[0]`). -/
inductive JS where
  | num (n : Nat)
  | cell (a b : JS)
  | undef
deriving DecidableEq

/-- The failures `nock.js` raises, one constructor per `throw` site
(`lus cell`, `tis atom`, `invalid fas noun`, `invalid fas addr: _`,
`invalid formula: _`), plus the TypeError JavaScript itself raises when a
property of `undefined` is read, and a `timeout` marker used by the fuelled
evaluator for out-of-fuel. -/
inductive Err where
  | lusCell
  | tisAtom
  | invalidFasNoun
  | invalidFasAddr (f : JS)
  | invalidFormula (op : Nat)
  | typeError
  | timeout
deriving DecidableEq

/-- A noun is a number or a cell, never `undefined`. -/
def JS.isNoun : JS → Prop := fun j => j ≠ JS.undef

instance (j : JS) : Decidable (JS.isNoun j) :=
  inferInstanceAs (Decidable (j ≠ JS.undef))

/-- wut (?), nock.js line 18: `typeof n === 'number' ? 1 : 0`.
`typeof undefined` is not `'number'`, so `wut undefined = 0`. -/
def wut : JS → Nat
  | JS.num _ => 1
  | _ => 0

/-- JavaScript property read `v[0]`: the head of an array, `undefined` for a
number, and a TypeError when `v` is itself `undefined`. -/
def idx0 : JS → Except Err JS
  | JS.cell a _ => Except.ok a
  | JS.num _ => Except.ok JS.undef
  | JS.undef => Except.error Err.typeError

/-- JavaScript property read `v[1]`. -/
def idx1 : JS → Except Err JS
  | JS.cell _ b => Except.ok b
  | JS.num _ => Except.ok JS.undef
  | JS.undef => Except.error Err.typeError

/-- lus (+), nock.js line 28: `if (wut(n) === 0) throw new Error('lus cell');
return 1 + n`. Atom arithmetic is idealised as exact (`1 + n` on naturals);
the double-precision rounding of the reference is modelled separately by
`lusJS` below. -/
def lus : JS → Except Err JS
  | JS.num n => Except.ok (JS.num (1 + n))
  | _ => Except.error Err.lusCell

/-- JavaScript strict equality `a === b` between two values. On two numbers it
compares values; a number is never `===` to an object or `undefined`. On two
arrays it is reference equality, which a structural model cannot determine, so
it is abstracted by the oracle parameter `ceq`. -/
def jsStrictEq (ceq : JS → JS → Bool) : JS → JS → Bool
  | JS.num a, JS.num b => a == b
  | JS.cell a b, JS.cell c d => ceq (JS.cell a b) (JS.cell c d)
  | JS.undef, JS.undef => true
  | _, _ => false

/-- tis (=), nock.js line 40: `if (wut(n) === 1) throw new Error('tis atom');
return n[0] === n[1] ? 0 : 1`. For `undefined`, `wut` is 0 and the read
`n[0]` raises a TypeError. -/
def tis (ceq : JS → JS → Bool) : JS → Except Err JS
  | JS.cell a b => Except.ok (JS.num (if jsStrictEq ceq a b then 0 else 1))
  | JS.num _ => Except.error Err.tisAtom
  | JS.undef => Except.error Err.typeError

/-- ToInt32, the coercion performed by the bitwise `|0` in
`(addr / 2)|0` (nock.js line 64): reduce modulo 2^32 into the signed range. -/
def toInt32 (x : Int) : Int :=
  let r := x % 4294967296
  if r < 2147483648 then r else r - 4294967296

/-- Truncating halving: the value of the JavaScript float division `addr / 2`
just before `|0` truncates it toward zero (exact for `|addr| < 2^53`). -/
def jsHalf (a : Int) : Int :=
  if a < 0 then -(((-a).toNat / 2 : Nat) : Int) else ((a.toNat / 2 : Nat) : Int)

/-- JavaScript remainder `a % 2`: takes the sign of the dividend
(`-0` is identified with `0`). -/
def jsMod2 (a : Int) : Int :=
  if a < 0 then -(((-a).toNat % 2 : Nat) : Int) else ((a.toNat % 2 : Nat) : Int)

/-- fas (/), nock.js lines 56-65, for an integer address (the recursive calls
build addresses `2 + (addr % 2)` and `(addr / 2)|0`, and the latter can be
negative through ToInt32 wrap-around):

    if (n === undefined) throw new Error('invalid fas noun')
    if (addr === 0) throw new Error('invalid fas addr: 0')
    if (addr === 1) return n
    if (addr === 2) return n[0]
    if (addr === 3) return n[1]
    return fas(2 + (addr % 2), fas((addr / 2)|0, n))
-/
def fasI (a : Int) (n : JS) : Except Err JS :=
  if n = JS.undef then Except.error Err.invalidFasNoun
  else if a = 0 then Except.error (Err.invalidFasAddr (JS.num 0))
  else if a = 1 then Except.ok n
  else if a = 2 then idx0 n
  else if a = 3 then idx1 n
  else
    match fasI (toInt32 (jsHalf a)) n with
    | Except.error e => Except.error e
    | Except.ok m => fasI (2 + jsMod2 a) m
termination_by 2 * a.natAbs + (if a < 0 then 1 else 0)
decreasing_by
  · have hb : (toInt32 (jsHalf a)).natAbs ≤ (jsHalf a).natAbs := by
      unfold toInt32
      have h1 : 0 ≤ jsHalf a % 4294967296 :=
        Int.emod_nonneg _ (by norm_num)
      have h2 : jsHalf a % 4294967296 < 4294967296 :=
        Int.emod_lt_of_pos _ (by norm_num)
      have h3 : 4294967296 * (jsHalf a / 4294967296) + jsHalf a % 4294967296
          = jsHalf a := Int.ediv_add_emod _ _
      set q := jsHalf a / 4294967296
      set r := jsHalf a % 4294967296
      simp only []
      split <;> omega
    have hh : (jsHalf a).natAbs = a.natAbs / 2 := by
      unfold jsHalf
      split <;> omega
    split <;> split <;> omega
  · unfold jsMod2
    split_ifs <;> omega

/-- fas as called with a JS value for the address (nock.js line 74 calls
`fas(f, s)` with a noun `f`). For a cell (or `undefined`) address every
strict-equality test against 0..3 fails and `(addr / 2)|0` is `NaN | 0 = 0`,
so the inner recursive call is `fas(0, n)`: after the `n === undefined`
check of the current frame, the inner frame throws `invalid fas addr: 0`. -/
def fas (addr n : JS) : Except Err JS :=
  match addr with
  | JS.num a => fasI (a : Int) n
  | _ =>
    if n = JS.undef then Except.error Err.invalidFasNoun
    else Except.error (Err.invalidFasAddr (JS.num 0))

/-- slot (0), nock.js lines 74-84: run `fas`, re-throw its error, and turn an
`undefined` product into `invalid fas addr: f`. -/
def slot (s f : JS) : Except Err JS :=
  match fas f s with
  | Except.error e => Except.error e
  | Except.ok p =>
    if p = JS.undef then Except.error (Err.invalidFasAddr f) else Except.ok p

/-- nock (*), nock.js lines 201-207, with a fuel argument making the
possibly-divergent recursion total (`Err.timeout` marks fuel exhaustion):

    function nock(s, f) {
      if (wut(f[0]) === 0) return [nock(s, f[0]), nock(s, f[1])]
      if (f[0] > 10) throw new Error('invalid formula: ' + f[0])
      return formulas[f[0]](s, f[1])
    }

Exception propagation of the source is the `Except` bind. Each opcode branch
inlines the corresponding formula function of nock.js verbatim (they are
restated as standalone definitions below and proved equal to the dispatch).
The head of the formula is matched in place of `wut(f[0]) === 0`: the test
is 0 exactly when the head is not a number. The oracle `ceq` stands for
reference equality between two array objects, which the structural model
cannot observe (it is consulted only by `tis`). -/
def nock (ceq : JS → JS → Bool) : Nat → JS → JS → Except Err JS
  | 0, _, _ => Except.error Err.timeout
  | k+1, s, f => do
    let h ← idx0 f
    match h with
    | JS.num op =>
      if 10 < op then Except.error (Err.invalidFormula op)
      else do
        let t ← idx1 f
        match op with
        | 0 =>
          -- slot (0), line 74
          slot s t
        | 1 =>
          -- constant (1), line 91: return the formula regardless of subject
          Except.ok t
        | 2 => do
          -- evaluate (2), line 100: nock(nock(s, f[0]), nock(s, f[1]))
          let b ← idx0 t
          let sb ← nock ceq k s b
          let c ← idx1 t
          let fc ← nock ceq k s c
          nock ceq k sb fc
        | 3 => do
          -- cell (3), line 109: wut(nock(s, f))
          let p ← nock ceq k s t
          Except.ok (JS.num (wut p))
        | 4 => do
          -- incr (4), line 118: lus(nock(s, f))
          let p ← nock ceq k s t
          lus p
        | 5 => do
          -- eq (5), line 127: tis(nock(s, f))
          let p ← nock ceq k s t
          tis ceq p
        | 6 => do
          -- ife (6), line 136:
          -- nock(s, f[0]) === 0 ? nock(s, f[1][0]) : nock(s, f[1][1])
          let b ← idx0 t
          let c ← nock ceq k s b
          let cd ← idx1 t
          if c = JS.num 0 then do
            let th ← idx0 cd
            nock ceq k s th
          else do
            let el ← idx1 cd
            nock ceq k s el
        | 7 => do
          -- compose (7), line 147: nock(nock(s, f[0]), f[1])
          let b ← idx0 t
          let p ← nock ceq k s b
          let c ← idx1 t
          nock ceq k p c
        | 8 => do
          -- extend (8), line 159: nock([nock(s, f[0]), s], f[1])
          let b ← idx0 t
          let p ← nock ceq k s b
          let c ← idx1 t
          nock ceq k (JS.cell p s) c
        | 9 => do
          -- invoke (9), line 170: var prod = nock(s, f[1]);
          --                       nock(prod, slot(prod, f[0]))
          let c ← idx1 t
          let prod ← nock ceq k s c
          let b ← idx0 t
          let frm ← slot prod b
          nock ceq k prod frm
        | _ => do
          -- hint (10), line 185: if (wut(f[0]) === 1) nock(s, f[0][1]);
          --                      return nock(s, f[1])
          -- note the test is === 1: the hinted branch is read off an ATOM
          -- operand, and a cell operand skips the hint evaluation
          let b ← idx0 t
          if wut b = 1 then do
            let bt ← idx1 b
            let _ ← nock ceq k s bt
            let c ← idx1 t
            nock ceq k s c
          else do
            let c ← idx1 t
            nock ceq k s c
    | _ => do
      -- wut(f[0]) === 0: the head is itself a formula (or undefined, when f
      -- is a number): autocons [nock(s, f[0]), nock(s, f[1])]
      let a ← nock ceq k s h
      let t ← idx1 f
      let b ← nock ceq k s t
      Except.ok (JS.cell a b)

/-- constant (1), nock.js line 91. -/
def constant (_s f : JS) : Except Err JS := Except.ok f

/-- evaluate (2), nock.js line 100, at fuel `k` for the recursive calls. -/
def evaluate (ceq : JS → JS → Bool) (k : Nat) (s f : JS) : Except Err JS := do
  let b ← idx0 f
  let sb ← nock ceq k s b
  let c ← idx1 f
  let fc ← nock ceq k s c
  nock ceq k sb fc

/-- cell (3), nock.js line 109. -/
def cell (ceq : JS → JS → Bool) (k : Nat) (s f : JS) : Except Err JS := do
  let p ← nock ceq k s f
  Except.ok (JS.num (wut p))

/-- incr (4), nock.js line 118. -/
def incr (ceq : JS → JS → Bool) (k : Nat) (s f : JS) : Except Err JS := do
  let p ← nock ceq k s f
  lus p

/-- eq (5), nock.js line 127. -/
def eq (ceq : JS → JS → Bool) (k : Nat) (s f : JS) : Except Err JS := do
  let p ← nock ceq k s f
  tis ceq p

/-- ife (6), nock.js line 136. -/
def ife (ceq : JS → JS → Bool) (k : Nat) (s f : JS) : Except Err JS := do
  let b ← idx0 f
  let c ← nock ceq k s b
  let cd ← idx1 f
  if c = JS.num 0 then do
    let th ← idx0 cd
    nock ceq k s th
  else do
    let el ← idx1 cd
    nock ceq k s el

/-- compose (7), nock.js line 147. -/
def compose (ceq : JS → JS → Bool) (k : Nat) (s f : JS) : Except Err JS := do
  let b ← idx0 f
  let p ← nock ceq k s b
  let c ← idx1 f
  nock ceq k p c

/-- extend (8), nock.js line 159. -/
def extend (ceq : JS → JS → Bool) (k : Nat) (s f : JS) : Except Err JS := do
  let b ← idx0 f
  let p ← nock ceq k s b
  let c ← idx1 f
  nock ceq k (JS.cell p s) c

/-- invoke (9), nock.js line 170. -/
def invoke (ceq : JS → JS → Bool) (k : Nat) (s f : JS) : Except Err JS := do
  let c ← idx1 f
  let prod ← nock ceq k s c
  let b ← idx0 f
  let frm ← slot prod b
  nock ceq k prod frm

/-- hint (10), nock.js line 185, exactly as written (testing
`wut(f[0]) === 1`). -/
def hint (ceq : JS → JS → Bool) (k : Nat) (s f : JS) : Except Err JS := do
  let b ← idx0 f
  if wut b = 1 then do
    let bt ← idx1 b
    let _ ← nock ceq k s bt
    let c ← idx1 f
    nock ceq k s c
  else do
    let c ← idx1 f
    nock ceq k s c

/-- A handler slot outside the table; JavaScript would raise a TypeError when
calling `formulas[i]` for an out-of-range index (never reached: the dispatch
checks `f[0] > 10` first). -/
def noFormula : JS → JS → Except Err JS := fun _ _ => Except.error Err.typeError

/-- The indexed formula table, nock.js line 191:
`[slot, constant, evaluate, cell, incr, eq, ife, compose, extend, invoke, hint]`. -/
def formulas (ceq : JS → JS → Bool) (k : Nat) : List (JS → JS → Except Err JS) :=
  [fun s f => slot s f, constant, evaluate ceq k, cell ceq k, incr ceq k,
   eq ceq k, ife ceq k, compose ceq k, extend ceq k, invoke ceq k, hint ceq k]


/-- The trivial oracle for reference equality between distinct arrays, used to
instantiate concrete runs (two separately constructed arrays are not `===`). -/
def ceq0 : JS → JS → Bool := fun _ _ => false

/-- A JavaScript value as seen by the variadic entry point: a number or an
array of arbitrary length (the `arguments` list, and the nested arrays a
caller supplies). A two-element array plays the role of a cell. -/
inductive JSV where
  | num (n : Nat)
  | arr (xs : List JSV)

/-- Structural equality test on `JSV` (nested induction, so it is written out
rather than derived). -/
def beqJSV : JSV → JSV → Bool
  | JSV.num a, JSV.num b => a == b
  | JSV.arr [], JSV.arr [] => true
  | JSV.arr (x :: xs), JSV.arr (y :: ys) => beqJSV x y && beqJSV (JSV.arr xs) (JSV.arr ys)
  | _, _ => false

/-- assoc, nock.js lines 210-216:

    function assoc(x) {
      if (!x.length) return x
      if (x.length === 1) return assoc(x[0])
      return [assoc(x[0]), assoc(x.slice(1))]
    }

For a number, `x.length` is `undefined`, which is falsy, so numbers are
returned unchanged; an empty array is returned unchanged too. -/
def assoc : JSV → JSV
  | JSV.num n => JSV.num n
  | JSV.arr [] => JSV.arr []
  | JSV.arr [x] => assoc x
  | JSV.arr (x :: y :: ys) => JSV.arr [assoc x, assoc (JSV.arr (y :: ys))]

/-- A JavaScript heap value for the identity-aware model of `tis`: a number,
or a reference to an array object in a store. -/
inductive HVal where
  | num (n : Nat)
  | ref (i : Nat)
deriving DecidableEq

/-- A store of two-element array objects; the index of an entry is the
object's identity. -/
def Store := List (HVal × HVal)

/-- JavaScript strict equality over heap values: numbers compare by value,
object references compare by identity, a number is never `===` an object. -/
def strictEqH : HVal → HVal → Bool
  | HVal.num a, HVal.num b => a == b
  | HVal.ref i, HVal.ref j => i == j
  | _, _ => false

/-- tis over the heap model (nock.js line 40): `n[0] === n[1] ? 0 : 1`, where
`===` on two array references is identity, not structural equality. -/
def tisH (σ : Store) : HVal → Except Err Nat
  | HVal.num _ => Except.error Err.tisAtom
  | HVal.ref i =>
    match List.get? σ i with
    | some c => Except.ok (if strictEqH c.1 c.2 then 0 else 1)
    | none => Except.error Err.typeError

/-- Decode a heap value into the structural noun it denotes (fuelled, since an
arbitrary store may be cyclic; the stores of interest are acyclic). -/
def decodeH : Nat → Store → HVal → Option JS
  | _, _, HVal.num n => some (JS.num n)
  | 0, _, HVal.ref _ => none
  | k+1, σ, HVal.ref i =>
    match List.get? σ i with
    | some c =>
      match decodeH k σ c.1, decodeH k σ c.2 with
      | some x, some y => some (JS.cell x y)
      | _, _ => none
    | none => none

/-- A store holding two distinct array objects both equal to `[0, 0]`
structurally, and a third array whose elements are those two references:
the argument `[[0,0], [0,0]]` as JavaScript builds it from two literals. -/
def storePair : Store :=
  [(HVal.num 0, HVal.num 0), (HVal.num 0, HVal.num 0), (HVal.ref 0, HVal.ref 1)]

/-- Floor of the base-2 logarithm, by structural recursion on a fuel so that
concrete instances compute inside the kernel. -/
def log2fuel : Nat → Nat → Nat
  | 0, _ => 0
  | fuel+1, n => if n ≤ 1 then 0 else log2fuel fuel (n / 2) + 1

/-- Modelled from IEEE-754 binary64 (the number type of JavaScript, in which
nock.js stores atoms): round a natural number to 53 significant bits, ties to
even. Integers up to 2^53 are exact. -/
def fl53 (x : Nat) : Nat :=
  if x ≤ 2 ^ 53 then x
  else
    let e := log2fuel x x - 52
    let u := 2 ^ e
    let q := x / u
    let r := x % u
    if 2 * r < u then q * u
    else if 2 * r > u then (q + 1) * u
    else if q % 2 = 0 then q * u else (q + 1) * u

/-- `1 + n` of nock.js line 30 as JavaScript double arithmetic actually
performs it, for an atom `n` that is itself exactly representable: the exact
sum rounded to binary64. -/
def lusJS (n : Nat) : Nat := fl53 (1 + n)

/-- Convergence of the fuelled evaluator: some fuel makes `nock` return `v`. -/
def EvalsTo (ceq : JS → JS → Bool) (s f v : JS) : Prop :=
  ∃ k, nock ceq k s f = Except.ok v

/-- The value of the JavaScript read `p[0]`: the head of a cell, `undefined`
on an atom. -/
def headJS : JS → JS
  | JS.cell a _ => a
  | _ => JS.undef

/-- The value of the JavaScript read `p[1]`: the tail of a cell, `undefined`
on an atom. -/
def tailJS : JS → JS
  | JS.cell _ b => b
  | _ => JS.undef

/-- Whether an evaluation produced a product (as opposed to throwing or
running out of fuel). -/
def exceptIsOk : Except Err JS → Bool
  | Except.ok _ => true
  | _ => false

/- ------------------------------------------------------------------ -/
/- Lemmas about the address arithmetic of `fas`.                       -/
/- ------------------------------------------------------------------ -/

theorem toInt32_eq_self (x : Int) (h1 : -2147483648 ≤ x) (h2 : x < 2147483648) :
    toInt32 x = x := by
  have ha : 0 ≤ x % 4294967296 := Int.emod_nonneg _ (by norm_num)
  have hb : x % 4294967296 < 4294967296 := Int.emod_lt_of_pos _ (by norm_num)
  have hc : 4294967296 * (x / 4294967296) + x % 4294967296 = x :=
    Int.ediv_add_emod _ _
  simp only [toInt32]
  split <;> omega

theorem jsHalf_natCast (h : Nat) : jsHalf (h : Int) = ((h / 2 : Nat) : Int) := by
  simp only [jsHalf]
  split <;> omega

theorem jsMod2_natCast (h : Nat) : jsMod2 (h : Int) = ((h % 2 : Nat) : Int) := by
  simp only [jsMod2]
  split <;> omega

theorem toInt32_natCast_small (h : Nat) (hs : h % 4294967296 < 2147483648) :
    toInt32 (h : Int) = ((h % 4294967296 : Nat) : Int) := by
  have ha : (h : Int) % 4294967296 = ((h % 4294967296 : Nat) : Int) := by
    omega
  simp only [toInt32, ha]
  split <;> omega

theorem toInt32_natCast_large (h : Nat) (hs : 2147483648 ≤ h % 4294967296) :
    -2147483648 ≤ toInt32 (h : Int) ∧ toInt32 (h : Int) < 0 := by
  have ha : (h : Int) % 4294967296 = ((h % 4294967296 : Nat) : Int) := by
    omega
  have hb : h % 4294967296 < 4294967296 := Nat.mod_lt _ (by norm_num)
  simp only [toInt32, ha]
  split <;> omega

theorem fasI_undef (a : Int) : fasI a JS.undef = Except.error Err.invalidFasNoun := by
  unfold fasI
  simp

theorem fasI_zero (n : JS) (hn : n ≠ JS.undef) :
    fasI 0 n = Except.error (Err.invalidFasAddr (JS.num 0)) := by
  unfold fasI
  simp [hn]

theorem fasI_one (n : JS) (hn : n ≠ JS.undef) : fasI 1 n = Except.ok n := by
  unfold fasI
  simp [hn]

theorem fasI_two (n : JS) (hn : n ≠ JS.undef) : fasI 2 n = idx0 n := by
  unfold fasI
  simp [hn]

theorem fasI_three (n : JS) (hn : n ≠ JS.undef) : fasI 3 n = idx1 n := by
  unfold fasI
  simp [hn]

theorem fasI_rec (a : Int) (h0 : a ≠ 0) (h1 : a ≠ 1) (h2 : a ≠ 2) (h3 : a ≠ 3)
    (n : JS) (hn : n ≠ JS.undef) :
    fasI a n =
      match fasI (toInt32 (jsHalf a)) n with
      | Except.error e => Except.error e
      | Except.ok m => fasI (2 + jsMod2 a) m := by
  conv_lhs => rw [fasI]
  simp [hn, h0, h1, h2, h3]

/-- A negative address of magnitude at most 2^31 (every negative address the
ToInt32 wrap can produce) never resolves: the halving chain reaches address 0
and throws. -/
theorem fasI_neg (N : Nat) : ∀ a : Int, a.natAbs ≤ N → -2147483648 ≤ a → a < 0 →
    ∀ n m, fasI a n ≠ Except.ok m := by
  induction N with
  | zero =>
    intro a hN _ hneg
    omega
  | succ N ih =>
    intro a hN hlo hneg n m hok
    by_cases hn : n = JS.undef
    · rw [hn, fasI_undef] at hok
      exact Except.noConfusion hok
    have h0 : a ≠ 0 := by omega
    have h1 : a ≠ 1 := by omega
    have h2 : a ≠ 2 := by omega
    have h3 : a ≠ 3 := by omega
    rw [fasI_rec a h0 h1 h2 h3 n hn] at hok
    have hhalf : jsHalf a = -(((-a).toNat / 2 : Nat) : Int) := by
      simp only [jsHalf]
      split <;> omega
    by_cases hz : jsHalf a = 0
    · rw [hz] at hok
      have : toInt32 0 = 0 := by decide
      rw [this, fasI_zero n hn] at hok
      exact Except.noConfusion hok
    · have hb1 : -2147483648 ≤ jsHalf a := by omega
      have hb2 : jsHalf a < 0 := by omega
      have hb3 : jsHalf a < 2147483648 := by omega
      rw [toInt32_eq_self _ hb1 hb3] at hok
      have habs : (jsHalf a).natAbs ≤ N := by omega
      cases hrec : fasI (jsHalf a) n with
      | error e =>
        rw [hrec] at hok
        exact Except.noConfusion hok
      | ok m2 =>
        exact ih (jsHalf a) habs hb1 hb2 n m2 hrec

/-- Key agreement lemma: when `fas` succeeds both at a natural address `h` and
at `ToInt32 h` (the address the recursion actually uses after the `|0`
truncation of nock.js line 64), the two resolutions agree. -/
theorem fasI_toInt32_agree (h : Nat) (n m p : JS)
    (hm : fasI (toInt32 (h : Int)) n = Except.ok m)
    (hp : fasI (h : Int) n = Except.ok p) : m = p := by
  by_cases hn : n = JS.undef
  · rw [hn, fasI_undef] at hp
    exact Except.noConfusion hp
  by_cases hsmall : h < 2147483648
  · rw [toInt32_eq_self (h : Int) (by omega) (by omega)] at hm
    rw [hp] at hm
    exact (Except.ok.inj hm).symm
  by_cases hl : 2147483648 ≤ h % 4294967296
  · obtain ⟨hlo, hneg⟩ := toInt32_natCast_large h hl
    exact absurd hm (fasI_neg (toInt32 (h : Int)).natAbs _ le_rfl hlo hneg n m)
  push_neg at hl
  have hr32 : 4294967296 ≤ h := by omega
  rw [toInt32_natCast_small h hl] at hm
  by_cases hy0 : h % 4294967296 = 0
  · rw [hy0] at hm
    simp only [Nat.cast_zero] at hm
    rw [fasI_zero n hn] at hm
    exact Except.noConfusion hm
  have h0 : (h : Int) ≠ 0 := by omega
  have h1 : (h : Int) ≠ 1 := by omega
  have h2 : (h : Int) ≠ 2 := by omega
  have h3 : (h : Int) ≠ 3 := by omega
  rw [fasI_rec _ h0 h1 h2 h3 n hn, jsHalf_natCast h] at hp
  by_cases hy1 : h % 4294967296 = 1
  · -- address ≡ 1 (mod 2^32): the halved address wraps to 0 or -2^31, so the
    -- resolution at h cannot succeed
    exfalso
    by_cases hke : (h / 4294967296) % 2 = 0
    · have hmod : (h / 2) % 4294967296 = 0 := by omega
      rw [toInt32_natCast_small (h / 2) (by omega), hmod] at hp
      simp only [Nat.cast_zero] at hp
      rw [fasI_zero n hn] at hp
      exact Except.noConfusion hp
    · have hlarge : 2147483648 ≤ (h / 2) % 4294967296 := by omega
      obtain ⟨hlo, hneg⟩ := toInt32_natCast_large (h / 2) hlarge
      cases hrec : fasI (toInt32 ((h / 2 : Nat) : Int)) n with
      | error e =>
        rw [hrec] at hp
        exact Except.noConfusion (show Except.error e = Except.ok p from hp)
      | ok m2 =>
        exact fasI_neg _ _ le_rfl hlo hneg n m2 hrec
  by_cases hy23 : h % 4294967296 = 2 ∨ h % 4294967296 = 3
  · -- the wrapped address is 2 or 3; the halved address wraps to exactly 1
    -- (or fails), after which both sides read the same child of n
    by_cases hke : (h / 4294967296) % 2 = 0
    · have hmod : (h / 2) % 4294967296 = 1 := by omega
      rw [toInt32_natCast_small (h / 2) (by omega), hmod] at hp
      simp only [Nat.cast_one] at hp
      rw [fasI_one n hn] at hp
      have hp2 : fasI (2 + jsMod2 (h : Int)) n = Except.ok p := hp
      rw [jsMod2_natCast h] at hp2
      have haddr : (2 : Int) + ((h % 2 : Nat) : Int) = ((h % 4294967296 : Nat) : Int) := by
        rcases hy23 with hy2 | hy2 <;> omega
      rw [haddr] at hp2
      rw [hp2] at hm
      exact (Except.ok.inj hm).symm
    · have hlarge : 2147483648 ≤ (h / 2) % 4294967296 := by omega
      obtain ⟨hlo, hneg⟩ := toInt32_natCast_large (h / 2) hlarge
      cases hrec : fasI (toInt32 ((h / 2 : Nat) : Int)) n with
      | error e =>
        rw [hrec] at hp
        exact Except.noConfusion (show Except.error e = Except.ok p from hp)
      | ok m2 =>
        exact absurd hrec (fasI_neg _ _ le_rfl hlo hneg n m2)
  -- the wrapped address is at least 4
  push_neg at hy23
  have hy4 : 4 ≤ h % 4294967296 := by omega
  have hy0i : ((h % 4294967296 : Nat) : Int) ≠ 0 := by omega
  have hy1i : ((h % 4294967296 : Nat) : Int) ≠ 1 := by omega
  have hy2i : ((h % 4294967296 : Nat) : Int) ≠ 2 := by omega
  have hy3i : ((h % 4294967296 : Nat) : Int) ≠ 3 := by omega
  rw [fasI_rec _ hy0i hy1i hy2i hy3i n hn, jsHalf_natCast (h % 4294967296)] at hm
  rw [toInt32_natCast_small (h % 4294967296 / 2) (by omega)] at hm
  rw [show h % 4294967296 / 2 % 4294967296 = h % 4294967296 / 2 by omega] at hm
  by_cases hke : (h / 4294967296) % 2 = 0
  · have hmod : (h / 2) % 4294967296 = h % 4294967296 / 2 := by omega
    rw [toInt32_natCast_small (h / 2) (by omega), hmod] at hp
    cases hrec : fasI ((h % 4294967296 / 2 : Nat) : Int) n with
    | error e =>
      rw [hrec] at hm
      exact Except.noConfusion (show Except.error e = Except.ok m from hm)
    | ok m1 =>
      rw [hrec] at hm
      rw [hrec] at hp
      have hm2 : fasI (2 + jsMod2 ((h % 4294967296 : Nat) : Int)) m1 = Except.ok m := hm
      have hp2 : fasI (2 + jsMod2 (h : Int)) m1 = Except.ok p := hp
      rw [jsMod2_natCast] at hm2
      rw [jsMod2_natCast] at hp2
      rw [show h % 4294967296 % 2 = h % 2 by omega] at hm2
      rw [hp2] at hm2
      exact (Except.ok.inj hm2).symm
  · have hlarge : 2147483648 ≤ (h / 2) % 4294967296 := by omega
    obtain ⟨hlo, hneg⟩ := toInt32_natCast_large (h / 2) hlarge
    cases hrec : fasI (toInt32 ((h / 2 : Nat) : Int)) n with
    | error e =>
      rw [hrec] at hp
      exact Except.noConfusion (show Except.error e = Except.ok p from hp)
    | ok m2 =>
      exact absurd hrec (fasI_neg _ _ le_rfl hlo hneg n m2)


/-- Decompose a successful Except bind. -/
theorem bind_ok {E : Except Err JS} {c : JS → Except Err JS} {v : JS} :
    (E >>= c) = Except.ok v ↔ ∃ x, E = Except.ok x ∧ c x = Except.ok v := by
  cases E <;> simp [Bind.bind, Except.bind]

/-- Dispatch: a formula headed by an atom above 10 is rejected, and one headed
by an atom in [0,10] is passed, with the formula tail as operand, to the
corresponding entry of the `formulas` table. -/
theorem nock_dispatch (ceq : JS → JS → Bool) (k : Nat) (s t : JS) (op : Nat) :
    (10 < op → nock ceq (k+1) s (JS.cell (JS.num op) t) =
        Except.error (Err.invalidFormula op))
    ∧ (op ≤ 10 → nock ceq (k+1) s (JS.cell (JS.num op) t) =
        ((formulas ceq k).getD op noFormula) s t) := by
  constructor
  · intro hgt
    show (if 10 < op then Except.error (Err.invalidFormula op) else _) = _
    rw [if_pos hgt]
  · intro hle
    interval_cases op <;> rfl

/-- Evaluating `undefined` as a formula raises a TypeError at once. -/
theorem nock_undef (ceq : JS → JS → Bool) (k : Nat) (s : JS) :
    nock ceq (k+1) s JS.undef = Except.error Err.typeError := by
  simp [nock, idx0, Bind.bind, Except.bind]

/-- An atom formula reads `f[0] = undefined`, takes the autocons branch, and
dies evaluating `nock(s, undefined)`. -/
theorem nock_num_formula (ceq : JS → JS → Bool) (k : Nat) (s : JS) (a : Nat) :
    nock ceq (k+1) s (JS.num a) =
      Except.error (if k = 0 then Err.timeout else Err.typeError) := by
  cases k with
  | zero => rfl
  | succ k =>
    simp only [Nat.succ_ne_zero, if_false]
    show (do
      let x ← nock ceq (k+1) s JS.undef
      let t ← idx1 (JS.num a)
      let b ← nock ceq (k+1) s t
      Except.ok (JS.cell x b)) = Except.error Err.typeError
    rw [nock_undef]
    rfl

/-- Autocons: a formula whose head is not a number reduces to the pair of the
two sub-evaluations. -/
theorem nock_autocons (ceq : JS → JS → Bool) (k : Nat) (s fh t : JS)
    (hfh : wut fh = 0) :
    nock ceq (k+1) s (JS.cell fh t) = (do
      let a ← nock ceq k s fh
      let b ← nock ceq k s t
      Except.ok (JS.cell a b)) := by
  cases fh with
  | num n => simp [wut] at hfh
  | cell x y => rfl
  | undef => rfl

/-- Fuel monotonicity: a product obtained at some fuel is preserved by any
larger fuel. -/
theorem nock_mono (ceq : JS → JS → Bool) (k : Nat) :
    ∀ (kk : Nat) (s f v : JS), k ≤ kk → nock ceq k s f = Except.ok v →
      nock ceq kk s f = Except.ok v := by
  induction k with
  | zero =>
    intro kk s f v _ h
    simp [nock] at h
  | succ k ih =>
    intro kk s f v hk h
    obtain ⟨k2, rfl⟩ : ∃ k2, kk = k2 + 1 := ⟨kk - 1, by omega⟩
    have hk2 : k ≤ k2 := by omega
    cases f with
    | undef =>
      rw [nock_undef] at h
      exact Except.noConfusion h
    | num a =>
      rw [nock_num_formula] at h
      exact Except.noConfusion h
    | cell fh t =>
      cases fh with
      | num op =>
        by_cases h10 : 10 < op
        · rw [(nock_dispatch ceq k s t op).1 h10] at h
          exact Except.noConfusion h
        · push_neg at h10
          rw [(nock_dispatch ceq k s t op).2 h10] at h
          rw [(nock_dispatch ceq k2 s t op).2 h10]
          interval_cases op
          · exact h
          · exact h
          · -- evaluate
            replace h : evaluate ceq k s t = Except.ok v := h
            show evaluate ceq k2 s t = Except.ok v
            unfold evaluate at h ⊢
            simp only [bind_ok] at h ⊢
            obtain ⟨b, hb, sb, hsb, c, hc, fc, hfc, h⟩ := h
            exact ⟨b, hb, sb, ih _ _ _ _ hk2 hsb, c, hc, fc, ih _ _ _ _ hk2 hfc,
              ih _ _ _ _ hk2 h⟩
          · -- cell
            replace h : cell ceq k s t = Except.ok v := h
            show cell ceq k2 s t = Except.ok v
            unfold cell at h ⊢
            simp only [bind_ok] at h ⊢
            obtain ⟨p, hp, h⟩ := h
            exact ⟨p, ih _ _ _ _ hk2 hp, h⟩
          · -- incr
            replace h : incr ceq k s t = Except.ok v := h
            show incr ceq k2 s t = Except.ok v
            unfold incr at h ⊢
            simp only [bind_ok] at h ⊢
            obtain ⟨p, hp, h⟩ := h
            exact ⟨p, ih _ _ _ _ hk2 hp, h⟩
          · -- eq
            replace h : eq ceq k s t = Except.ok v := h
            show eq ceq k2 s t = Except.ok v
            unfold eq at h ⊢
            simp only [bind_ok] at h ⊢
            obtain ⟨p, hp, h⟩ := h
            exact ⟨p, ih _ _ _ _ hk2 hp, h⟩
          · -- ife
            replace h : ife ceq k s t = Except.ok v := h
            show ife ceq k2 s t = Except.ok v
            unfold ife at h ⊢
            simp only [bind_ok] at h ⊢
            obtain ⟨b, hb, c, hc, cd, hcd, h⟩ := h
            refine ⟨b, hb, c, ih _ _ _ _ hk2 hc, cd, hcd, ?_⟩
            by_cases hz : c = JS.num 0
            · rw [if_pos hz] at h ⊢
              simp only [bind_ok] at h ⊢
              obtain ⟨th, hth, h⟩ := h
              exact ⟨th, hth, ih _ _ _ _ hk2 h⟩
            · rw [if_neg hz] at h ⊢
              simp only [bind_ok] at h ⊢
              obtain ⟨el, hel, h⟩ := h
              exact ⟨el, hel, ih _ _ _ _ hk2 h⟩
          · -- compose
            replace h : compose ceq k s t = Except.ok v := h
            show compose ceq k2 s t = Except.ok v
            unfold compose at h ⊢
            simp only [bind_ok] at h ⊢
            obtain ⟨b, hb, p, hp, c, hc, h⟩ := h
            exact ⟨b, hb, p, ih _ _ _ _ hk2 hp, c, hc, ih _ _ _ _ hk2 h⟩
          · -- extend
            replace h : extend ceq k s t = Except.ok v := h
            show extend ceq k2 s t = Except.ok v
            unfold extend at h ⊢
            simp only [bind_ok] at h ⊢
            obtain ⟨b, hb, p, hp, c, hc, h⟩ := h
            exact ⟨b, hb, p, ih _ _ _ _ hk2 hp, c, hc, ih _ _ _ _ hk2 h⟩
          · -- invoke
            replace h : invoke ceq k s t = Except.ok v := h
            show invoke ceq k2 s t = Except.ok v
            unfold invoke at h ⊢
            simp only [bind_ok] at h ⊢
            obtain ⟨c, hc, prod, hprod, b, hb, frm, hfrm, h⟩ := h
            exact ⟨c, hc, prod, ih _ _ _ _ hk2 hprod, b, hb, frm, hfrm,
              ih _ _ _ _ hk2 h⟩
          · -- hint
            replace h : hint ceq k s t = Except.ok v := h
            show hint ceq k2 s t = Except.ok v
            unfold hint at h ⊢
            simp only [bind_ok] at h ⊢
            obtain ⟨b, hb, h⟩ := h
            refine ⟨b, hb, ?_⟩
            by_cases hw : wut b = 1
            · rw [if_pos hw] at h ⊢
              simp only [bind_ok] at h ⊢
              obtain ⟨bt, hbt, d, hd, c, hc, h⟩ := h
              exact ⟨bt, hbt, d, ih _ _ _ _ hk2 hd, c, hc, ih _ _ _ _ hk2 h⟩
            · rw [if_neg hw] at h ⊢
              simp only [bind_ok] at h ⊢
              obtain ⟨c, hc, h⟩ := h
              exact ⟨c, hc, ih _ _ _ _ hk2 h⟩
      | cell x y =>
        rw [nock_autocons ceq k s (JS.cell x y) t rfl] at h
        rw [nock_autocons ceq k2 s (JS.cell x y) t rfl]
        simp only [bind_ok] at h ⊢
        obtain ⟨a, ha, b, hb, h⟩ := h
        exact ⟨a, ih _ _ _ _ hk2 ha, b, ih _ _ _ _ hk2 hb, h⟩
      | undef =>
        rw [nock_autocons ceq k s JS.undef t rfl] at h
        rw [nock_autocons ceq k2 s JS.undef t rfl]
        simp only [bind_ok] at h ⊢
        obtain ⟨a, ha, b, hb, h⟩ := h
        exact ⟨a, ih _ _ _ _ hk2 ha, b, ih _ _ _ _ hk2 hb, h⟩


/-- Claim C1 (code evaluated at the failing input): the store holds two
structurally equal but distinct array objects `[0,0]` at indices 0 and 1, and
the pair of them at index 2; `tis` compares the two references with `===` and
answers 1 (not equal), although both decode to the same noun `(0,0)`. -/
theorem claim1_tis_shallow :
    tisH storePair (HVal.ref 2) = Except.ok 1
    ∧ decodeH 2 storePair (HVal.ref 0) = some (JS.cell (JS.num 0) (JS.num 0))
    ∧ decodeH 2 storePair (HVal.ref 1) = some (JS.cell (JS.num 0) (JS.num 0)) :=
  ⟨rfl, rfl, rfl⟩

/-- Claim C2 (code evaluated at the failing input): with subject 0 and formula
`[6, [1, [0,0]], [1,11], [1,22]]` the condition evaluates to the cell `[0,0]`;
the code compares it with `=== 0`, gets false, and returns the else product 22
instead of failing. The other two conjuncts pin the atom cases: condition 0
takes the then branch, a nonzero atom takes the else branch. -/
theorem claim2_ife_cell_condition :
    nock ceq0 5 (JS.num 0)
      (JS.cell (JS.num 6) (JS.cell (JS.cell (JS.num 1) (JS.cell (JS.num 0) (JS.num 0)))
        (JS.cell (JS.cell (JS.num 1) (JS.num 11)) (JS.cell (JS.num 1) (JS.num 22)))))
      = Except.ok (JS.num 22)
    ∧ nock ceq0 5 (JS.num 0)
      (JS.cell (JS.num 6) (JS.cell (JS.cell (JS.num 1) (JS.num 0))
        (JS.cell (JS.cell (JS.num 1) (JS.num 11)) (JS.cell (JS.num 1) (JS.num 22)))))
      = Except.ok (JS.num 11)
    ∧ nock ceq0 5 (JS.num 0)
      (JS.cell (JS.num 6) (JS.cell (JS.cell (JS.num 1) (JS.num 7))
        (JS.cell (JS.cell (JS.num 1) (JS.num 11)) (JS.cell (JS.num 1) (JS.num 22)))))
      = Except.ok (JS.num 22) :=
  ⟨rfl, rfl, rfl⟩

/-- Claim C7 (code evaluated at the failing input): the hint test on nock.js
line 186 is `wut(f[0]) === 1`, so the ATOM operand 37 makes the code read
`37[1] = undefined` and evaluate `nock(s, undefined)`, a TypeError — the
spec scenario `(10,(37,(4,0,3)))` crashes instead of producing 20, although
the inner formula `(4,0,3)` alone does produce 20. -/
theorem claim7_hint_crashes :
    nock ceq0 5 (JS.cell (JS.num 132) (JS.num 19))
      (JS.cell (JS.num 10) (JS.cell (JS.num 37)
        (JS.cell (JS.num 4) (JS.cell (JS.num 0) (JS.num 3)))))
      = Except.error Err.typeError
    ∧ nock ceq0 5 (JS.cell (JS.num 132) (JS.num 19))
      (JS.cell (JS.num 4) (JS.cell (JS.num 0) (JS.num 3))) = Except.ok (JS.num 20) := by
  constructor
  · rfl
  · have h3 : slot (JS.cell (JS.num 132) (JS.num 19)) (JS.num 3)
        = Except.ok (JS.num 19) := by
      simp [slot, fas, fasI, idx1]
    simp [nock, h3, idx0, idx1, lus, Bind.bind, Except.bind]

/-- Claim C8 (code evaluated at the failing input): in binary64 arithmetic
`1 + 2^53` rounds back to `2^53`, so the increment of nock.js line 30 is not
`n+1` at that magnitude (it is exact on smaller atoms, e.g. 5 becomes 6), and
a cell operand is correctly rejected. -/
theorem claim8_lus_precision :
    lusJS 9007199254740992 = 9007199254740992
    ∧ lusJS 5 = 6
    ∧ lus (JS.cell (JS.num 1) (JS.num 2)) = Except.error Err.lusCell :=
  ⟨by decide, by decide, rfl⟩

/-- Claim C9 counterexample: with the sequence `[[[1],2], 3]`, the code
associates the HEAD element too (it becomes `[1,2]`), so the result differs
from the claimed `(x1, assoc([x2,…,xn]))` with `x1` left as supplied. -/
theorem claim9_counterexample :
    assoc (JSV.arr [JSV.arr [JSV.arr [JSV.num 1], JSV.num 2], JSV.num 3])
      ≠ JSV.arr [JSV.arr [JSV.arr [JSV.num 1], JSV.num 2],
          assoc (JSV.arr [JSV.num 3])] := by
  simp [assoc]

/-- Claim C9 as amended: the associator maps `[x1,…,xn]` (n ≥ 2) to
`(assoc x1, assoc [x2,…,xn])` — the head is recursively associated as well —
while a singleton reduces to its recursively associated element and an empty
sequence or a non-sequence is returned unchanged. -/
theorem claim9_assoc_spec :
    (∀ x y ys, assoc (JSV.arr (x :: y :: ys))
        = JSV.arr [assoc x, assoc (JSV.arr (y :: ys))])
    ∧ (∀ x, assoc (JSV.arr [x]) = assoc x)
    ∧ assoc (JSV.arr []) = JSV.arr []
    ∧ (∀ n, assoc (JSV.num n) = JSV.num n) := by
  refine ⟨fun x y ys => ?_, fun x => ?_, ?_, fun n => ?_⟩ <;> simp [assoc]

/-- Claim C10: an atom formula always fails — at any fuel the evaluation never
returns a product, and with enough fuel the failure is the TypeError raised by
reading a property of `undefined` (the atom is treated as a cell by the
autocons test, since `wut(undefined) = 0`), which is none of the five error
kinds of the spec. -/
theorem claim10_atom_formula (ceq : JS → JS → Bool) (s : JS) (a : Nat) :
    (∀ k, exceptIsOk (nock ceq k s (JS.num a)) = false)
    ∧ (∀ k, nock ceq (k+2) s (JS.num a) = Except.error Err.typeError)
    ∧ ((Err.typeError == Err.lusCell) = false
       ∧ (Err.typeError == Err.tisAtom) = false
       ∧ (∀ j, (Err.typeError == Err.invalidFasAddr j) = false)
       ∧ (Err.typeError == Err.invalidFasNoun) = false
       ∧ (∀ o, (Err.typeError == Err.invalidFormula o) = false)) := by
  refine ⟨fun k => ?_, fun k => ?_, rfl, rfl, fun j => rfl, rfl, fun o => rfl⟩
  · cases k with
    | zero => rfl
    | succ k => rw [nock_num_formula]; rfl
  · rw [nock_num_formula ceq (k+1) s a]
    simp


/-- Claim C3: dispatch on a formula headed by an atom: any head atom above 10
fails with `invalid formula`, and any head atom in [0,10] invokes the
corresponding entry of the `formulas` table on the formula tail. -/
theorem claim3_dispatch (ceq : JS → JS → Bool) (k : Nat) (s t : JS) (op : Nat) :
    (10 < op → nock ceq (k+1) s (JS.cell (JS.num op) t) =
        Except.error (Err.invalidFormula op))
    ∧ (op ≤ 10 → nock ceq (k+1) s (JS.cell (JS.num op) t) =
        ((formulas ceq k).getD op noFormula) s t) :=
  nock_dispatch ceq k s t op

/-- Witness for C3 at opcode 11 (rejected) and opcode 4 (dispatched). -/
theorem claim3_dispatch_witness :
    nock ceq0 1 (JS.num 0) (JS.cell (JS.num 11) (JS.num 0))
      = Except.error (Err.invalidFormula 11)
    ∧ nock ceq0 1 (JS.num 0) (JS.cell (JS.num 4) (JS.num 0))
      = ((formulas ceq0 0).getD 4 noFormula) (JS.num 0) (JS.num 0) :=
  ⟨(claim3_dispatch ceq0 0 (JS.num 0) (JS.num 0) 11).1 (by decide),
   (claim3_dispatch ceq0 0 (JS.num 0) (JS.num 0) 4).2 (by decide)⟩

/-- Resolving any address in [4, 2^32) inside an atom fails with
`invalid fas noun`: the address-2 or address-3 step returns `undefined`, and
the surrounding frame rejects it as noun. -/
theorem fasI_atom_deep (b : Nat) :
    ∀ m : Nat, 4 ≤ b → b < 4294967296 →
      fasI (b : Int) (JS.num m) = Except.error Err.invalidFasNoun := by
  induction b using Nat.strong_induction_on with
  | _ b ih =>
    intro m hb4 hb32
    have hn : (JS.num m) ≠ JS.undef := fun h => JS.noConfusion h
    rw [fasI_rec (b : Int) (by omega) (by omega) (by omega) (by omega) _ hn,
      jsHalf_natCast b]
    rw [toInt32_natCast_small (b / 2) (by omega),
      show b / 2 % 4294967296 = b / 2 by omega]
    by_cases hsmall : b / 2 ≤ 3
    · have h23 : b / 2 = 2 ∨ b / 2 = 3 := by omega
      rcases h23 with h2 | h2 <;> rw [h2]
      · rw [show ((2 : Nat) : Int) = 2 from rfl, fasI_two _ hn]
        show fasI (2 + jsMod2 (b : Int)) JS.undef = _
        exact fasI_undef _
      · rw [show ((3 : Nat) : Int) = 3 from rfl, fasI_three _ hn]
        show fasI (2 + jsMod2 (b : Int)) JS.undef = _
        exact fasI_undef _
    · rw [ih (b / 2) (by omega) m (by omega) (by omega)]

/-- Claim C4 counterexample: `fas(2, 5)` and `fas(3, 5)` do NOT fail — they
return the non-noun `undefined` (the claim says resolving the head or tail of
an atom always fails). -/
theorem claim4_counterexample :
    fas (JS.num 2) (JS.num 5) = Except.ok JS.undef
    ∧ fas (JS.num 3) (JS.num 5) = Except.ok JS.undef := by
  constructor
  · show fasI ((2 : Nat) : Int) (JS.num 5) = _
    rw [show ((2 : Nat) : Int) = 2 from rfl,
      fasI_two _ (fun h => JS.noConfusion h)]
    rfl
  · show fasI ((3 : Nat) : Int) (JS.num 5) = _
    rw [show ((3 : Nat) : Int) = 3 from rfl,
      fasI_three _ (fun h => JS.noConfusion h)]
    rfl

/-- Claim C4 as amended: address 0 fails with `invalid fas addr: 0` on every
noun; taking the head or tail of an atom at top level (address 2 or 3) makes
`fas` return the non-noun `undefined` without failing, which the `slot`
wrapper then converts into an `invalid fas addr` error; for addresses in
[4, 2^32) inside an atom, `fas` itself fails with `invalid fas noun`; and
`slot` never returns a non-noun. -/
theorem claim4_resolver_errors :
    (∀ n : JS, n.isNoun → fas (JS.num 0) n = Except.error (Err.invalidFasAddr (JS.num 0)))
    ∧ (∀ a : Nat, fas (JS.num 2) (JS.num a) = Except.ok JS.undef
        ∧ fas (JS.num 3) (JS.num a) = Except.ok JS.undef)
    ∧ (∀ a : Nat, slot (JS.num a) (JS.num 2)
          = Except.error (Err.invalidFasAddr (JS.num 2))
        ∧ slot (JS.num a) (JS.num 3)
          = Except.error (Err.invalidFasAddr (JS.num 3)))
    ∧ (∀ b m : Nat, 4 ≤ b → b < 4294967296 →
        fas (JS.num b) (JS.num m) = Except.error Err.invalidFasNoun)
    ∧ (∀ s f p : JS, slot s f = Except.ok p → p.isNoun) := by
  have hfas2 : ∀ a : Nat, fas (JS.num 2) (JS.num a) = Except.ok JS.undef := by
    intro a
    show fasI ((2 : Nat) : Int) (JS.num a) = _
    rw [show ((2 : Nat) : Int) = 2 from rfl,
      fasI_two _ (fun h => JS.noConfusion h)]
    rfl
  have hfas3 : ∀ a : Nat, fas (JS.num 3) (JS.num a) = Except.ok JS.undef := by
    intro a
    show fasI ((3 : Nat) : Int) (JS.num a) = _
    rw [show ((3 : Nat) : Int) = 3 from rfl,
      fasI_three _ (fun h => JS.noConfusion h)]
    rfl
  refine ⟨?_, fun a => ⟨hfas2 a, hfas3 a⟩, fun a => ⟨?_, ?_⟩, fun b m h4 h32 => ?_,
    fun s f p h => ?_⟩
  · intro n hn
    show fasI ((0 : Nat) : Int) n = _
    rw [show ((0 : Nat) : Int) = 0 from rfl]
    exact fasI_zero n hn
  · show (match fas (JS.num 2) (JS.num a) with
      | Except.error e => Except.error e
      | Except.ok p => if p = JS.undef
          then Except.error (Err.invalidFasAddr (JS.num 2)) else Except.ok p) = _
    rw [hfas2 a]
    rfl
  · show (match fas (JS.num 3) (JS.num a) with
      | Except.error e => Except.error e
      | Except.ok p => if p = JS.undef
          then Except.error (Err.invalidFasAddr (JS.num 3)) else Except.ok p) = _
    rw [hfas3 a]
    rfl
  · show fasI ((b : Nat) : Int) (JS.num m) = _
    exact fasI_atom_deep b m h4 h32
  · unfold slot at h
    cases hf : fas f s with
    | error e =>
      rw [hf] at h
      exact Except.noConfusion h
    | ok q =>
      rw [hf] at h
      replace h : (if q = JS.undef then Except.error (Err.invalidFasAddr f)
          else Except.ok q) = Except.ok p := h
      by_cases hq : q = JS.undef
      · rw [if_pos hq] at h
        exact Except.noConfusion h
      · rw [if_neg hq] at h
        have := Except.ok.inj h
        rw [← this]
        exact hq

/-- Witness for C4 as amended, at concrete inputs. -/
theorem claim4_resolver_errors_witness :
    fas (JS.num 0) (JS.num 7) = Except.error (Err.invalidFasAddr (JS.num 0))
    ∧ fas (JS.num 4) (JS.num 5) = Except.error Err.invalidFasNoun
    ∧ JS.isNoun (JS.num 19) :=
  ⟨claim4_resolver_errors.1 (JS.num 7) (by decide),
   claim4_resolver_errors.2.2.2.1 4 5 (by decide) (by decide),
   claim4_resolver_errors.2.2.2.2 (JS.cell (JS.num 132) (JS.num 19)) (JS.num 3)
     (JS.num 19) (by simp [slot, fas, fasI, idx1])⟩


/-- Claim C5: the resolver satisfies its recursive definition — address 1 is
the identity on nouns, addresses 2 and 3 project a cell, and for any address
above 3 a successful resolution agrees with the head (even address) or tail
(odd address) of a successful resolution at half the address. -/
theorem claim5_fas_recursion :
    (∀ n : JS, n.isNoun → fas (JS.num 1) n = Except.ok n)
    ∧ (∀ a b : JS, fas (JS.num 2) (JS.cell a b) = Except.ok a)
    ∧ (∀ a b : JS, fas (JS.num 3) (JS.cell a b) = Except.ok b)
    ∧ (∀ (a : Nat) (n v p : JS), 3 < a →
        fasI (a : Int) n = Except.ok v →
        fasI ((a / 2 : Nat) : Int) n = Except.ok p →
        v = (if a % 2 = 0 then headJS p else tailJS p)) := by
  refine ⟨fun n hn => ?_, fun a b => ?_, fun a b => ?_, fun a n v p ha hv hp => ?_⟩
  · show fasI ((1 : Nat) : Int) n = _
    rw [show ((1 : Nat) : Int) = 1 from rfl]
    exact fasI_one n hn
  · show fasI ((2 : Nat) : Int) (JS.cell a b) = _
    rw [show ((2 : Nat) : Int) = 2 from rfl,
      fasI_two _ (fun h => JS.noConfusion h)]
    rfl
  · show fasI ((3 : Nat) : Int) (JS.cell a b) = _
    rw [show ((3 : Nat) : Int) = 3 from rfl,
      fasI_three _ (fun h => JS.noConfusion h)]
    rfl
  · have hn : n ≠ JS.undef := by
      intro he
      rw [he, fasI_undef] at hv
      exact Except.noConfusion hv
    rw [fasI_rec (a : Int) (by omega) (by omega) (by omega) (by omega) n hn,
      jsHalf_natCast a] at hv
    cases hrec : fasI (toInt32 ((a / 2 : Nat) : Int)) n with
    | error e =>
      rw [hrec] at hv
      exact Except.noConfusion (show Except.error e = Except.ok v from hv)
    | ok m =>
      rw [hrec] at hv
      have hv2 : fasI (2 + jsMod2 (a : Int)) m = Except.ok v := hv
      have hmp : m = p := fasI_toInt32_agree (a / 2) n m p hrec hp
      subst hmp
      rw [jsMod2_natCast a] at hv2
      have hm : m ≠ JS.undef := by
        intro he
        rw [he, fasI_undef] at hv2
        exact Except.noConfusion hv2
      by_cases hpar : a % 2 = 0
      · rw [hpar] at hv2
        rw [show (2 : Int) + ((0 : Nat) : Int) = 2 by norm_num] at hv2
        rw [fasI_two m hm] at hv2
        rw [if_pos hpar]
        cases m with
        | cell x y => exact (Except.ok.inj hv2).symm
        | num q => exact (Except.ok.inj hv2).symm
        | undef => exact absurd rfl hm
      · have hpar1 : a % 2 = 1 := by omega
        rw [hpar1] at hv2
        rw [show (2 : Int) + ((1 : Nat) : Int) = 3 by norm_num] at hv2
        rw [fasI_three m hm] at hv2
        rw [if_neg hpar]
        cases m with
        | cell x y => exact (Except.ok.inj hv2).symm
        | num q => exact (Except.ok.inj hv2).symm
        | undef => exact absurd rfl hm

/-- Witness for C5 on the noun `((1,2),3)`: address 1 is the identity on the
atom 5, and address 4 resolves to the head of the resolution at address 2. -/
theorem claim5_fas_recursion_witness :
    fas (JS.num 1) (JS.num 5) = Except.ok (JS.num 5)
    ∧ JS.num 1 = (if (4 : Nat) % 2 = 0
        then headJS (JS.cell (JS.num 1) (JS.num 2))
        else tailJS (JS.cell (JS.num 1) (JS.num 2))) := by
  constructor
  · exact claim5_fas_recursion.1 (JS.num 5) (by decide)
  · exact claim5_fas_recursion.2.2.2 4
      (JS.cell (JS.cell (JS.num 1) (JS.num 2)) (JS.num 3))
      (JS.num 1) (JS.cell (JS.num 1) (JS.num 2)) (by decide)
      (by simp [fasI, toInt32, jsHalf, jsMod2, idx0, idx1])
      (by simp [fasI, idx0])


/-- Claim C6: the compose law. Evaluating `(7, f, g)` against `s` converges to
`v` exactly when evaluating `f` against `s` converges to some `p` and `g`
against `p` converges to `v`: whenever either side is defined, both are, and
the products agree. -/
theorem claim6_compose_law (ceq : JS → JS → Bool) (s f g v : JS) :
    EvalsTo ceq s (JS.cell (JS.num 7) (JS.cell f g)) v ↔
      ∃ p, EvalsTo ceq s f p ∧ EvalsTo ceq p g v := by
  constructor
  · rintro ⟨k, hk⟩
    cases k with
    | zero => exact absurd hk (by simp [nock])
    | succ k =>
      rw [(nock_dispatch ceq k s (JS.cell f g) 7).2 (by norm_num)] at hk
      replace hk : compose ceq k s (JS.cell f g) = Except.ok v := hk
      unfold compose at hk
      simp only [bind_ok] at hk
      obtain ⟨b, hb, p, hp, c, hc, hk⟩ := hk
      rw [show idx0 (JS.cell f g) = Except.ok f from rfl] at hb
      rw [show idx1 (JS.cell f g) = Except.ok g from rfl] at hc
      cases Except.ok.inj hb
      cases Except.ok.inj hc
      exact ⟨p, ⟨k, hp⟩, ⟨k, hk⟩⟩
  · rintro ⟨p, ⟨k1, h1⟩, ⟨k2, h2⟩⟩
    refine ⟨max k1 k2 + 1, ?_⟩
    rw [(nock_dispatch ceq (max k1 k2) s (JS.cell f g) 7).2 (by norm_num)]
    show compose ceq (max k1 k2) s (JS.cell f g) = Except.ok v
    unfold compose
    simp only [bind_ok]
    exact ⟨f, rfl, p, nock_mono ceq k1 (max k1 k2) s f p (le_max_left _ _) h1,
      g, rfl, nock_mono ceq k2 (max k1 k2) p g v (le_max_right _ _) h2⟩

/-- Witness for C6: subject 42 with `(7,(4,0,1),(4,0,1))` — two chained
increments — converges to 44. -/
theorem claim6_compose_law_witness :
    EvalsTo ceq0 (JS.num 42)
      (JS.cell (JS.num 7) (JS.cell (JS.cell (JS.num 4) (JS.cell (JS.num 0) (JS.num 1)))
        (JS.cell (JS.num 4) (JS.cell (JS.num 0) (JS.num 1))))) (JS.num 44) := by
  have h42 : slot (JS.num 42) (JS.num 1) = Except.ok (JS.num 42) := by
    simp [slot, fas, fasI]
  have h43 : slot (JS.num 43) (JS.num 1) = Except.ok (JS.num 43) := by
    simp [slot, fas, fasI]
  refine (claim6_compose_law ceq0 (JS.num 42) _ _ (JS.num 44)).mpr
    ⟨JS.num 43, ⟨2, ?_⟩, ⟨2, ?_⟩⟩
  · simp [nock, h42, idx0, idx1, lus, Bind.bind, Except.bind]
  · simp [nock, h43, idx0, idx1, lus, Bind.bind, Except.bind]

end Nock
